import Mathlib

/-!
Shallow embedding of the access-control compliance review tool
(`src/review.py`) and proofs about its validation engine.

Modelling conventions:
* `datetime` values are modelled at day granularity as integers (`Int`);
  `timedelta(days = n)` is the integer `n`, subtraction of datetimes is
  integer subtraction, and `(a - b).days` is `a - b`.
* Successive calls to `datetime.today()` are modelled by a clock stream
  `clock : Nat → Int`; the k-th call returns `clock k`.  `review_access`
  performs call 0 for `stale_cutoff` and one further call per entry whose
  stale-account rule fires (the day count in the details string).
* Python `set` values are modelled as `List` values used only through
  membership, deduplicated construction and sorted iteration, and
  `Dict[str, PolicyRole]` as an association list with overwriting insert.
* Python strings map to `String`; `str.strip` is `pyStrip` and
  `str.split(",")` is `splitComma`, both implemented over character lists
  so that concrete runs reduce inside the kernel.
-/

namespace AccessReview

/-- ASCII whitespace as stripped by Python `str.strip`. -/
def isPySpace (c : Char) : Bool :=
  c = ' ' || c = '\t' || c = '\n' || c = '\x0b' || c = '\x0c' || c = '\r'

/-- Model of Python `str.strip()` (drop whitespace from both ends). -/
def pyStrip (s : String) : String :=
  String.mk ((((s.toList).dropWhile isPySpace).reverse.dropWhile isPySpace).reverse)

/-- Split a character list at commas; auxiliary for `splitComma`. -/
def splitCommaChars : List Char → List (List Char)
  | [] => [[]]
  | c :: cs =>
      if c = ',' then [] :: splitCommaChars cs
      else
        match splitCommaChars cs with
        | [] => [[c]]
        | w :: ws => (c :: w) :: ws

/-- Model of Python `s.split(",")`. -/
def splitComma (s : String) : List String :=
  (splitCommaChars s.toList).map String.mk

/-- One row of the access list, mirroring the `AccessRow` dataclass.
`last_login` is `none` when the CSV field was empty. -/
structure AccessRow where
  user_id : String
  user_name : String
  department : String
  role : String
  status : String
  last_login : Option Int
deriving DecidableEq, Repr

/-- One catalog entry, mirroring the `PolicyRole` dataclass.
`allowed_departments` models the Python set of department names. -/
structure PolicyRole where
  role : String
  allowed_departments : List String
  description : String
deriving DecidableEq, Repr

/-- One detected problem, mirroring the `Violation` dataclass. -/
structure Violation where
  user_id : String
  user_name : String
  department : String
  role : String
  issue : String
  severity : String
  details : String
deriving DecidableEq, Repr

/-- Copy the entry fields into a violation, as every
`Violation(...)` constructor call in `review_access` does. -/
def mkViolation (r : AccessRow) (issue severity details : String) : Violation :=
  ⟨r.user_id, r.user_name, r.department, r.role, issue, severity, details⟩

/-- Lookup in the catalog dictionary (`r.role in policy_roles` /
`policy_roles[r.role]`). -/
def lookupRole (policy_roles : List (String × PolicyRole)) (role : String) :
    Option PolicyRole :=
  (policy_roles.find? (fun p => p.fst == role)).map Prod.snd

/-- Insertion into a sorted list of strings, auxiliary for `sortStrings`. -/
def insertSorted (s : String) : List String → List String
  | [] => [s]
  | t :: ts => if s ≤ t then s :: t :: ts else t :: insertSorted s ts

/-- Model of Python `sorted` on strings (insertion sort, ascending). -/
def sortStrings : List String → List String
  | [] => []
  | s :: ss => insertSorted s (sortStrings ss)

/-- The `(user_id, role)` key used for duplicate detection. -/
def accessKey (r : AccessRow) : String × String := (r.user_id, r.role)

/-- Loop of `find_duplicates`: `seen` and `dups` are the two accumulated
sets (modelled as duplicate-free lists in insertion order). -/
def fdGo (seen dups : List (String × String)) :
    List AccessRow → List (String × String)
  | [] => dups
  | r :: rest =>
      if accessKey r ∈ seen then
        fdGo seen (if accessKey r ∈ dups then dups else dups ++ [accessKey r]) rest
      else
        fdGo (seen ++ [accessKey r]) dups rest

/-- Model of `find_duplicates`: the set of `(user_id, role)` pairs appearing more
than once. -/
def find_duplicates (rows : List AccessRow) : List (String × String) :=
  fdGo [] [] rows

/-- Rule 1 violation (`UNKNOWN_ROLE`). -/
def unknownRoleViolation (r : AccessRow) : Violation :=
  mkViolation r "UNKNOWN_ROLE" "HIGH" "Role not found in policy catalog."

/-- Rule 2 (`ROLE_NOT_ALLOWED_FOR_DEPARTMENT`): fires when the allowed set
contains neither the literal "*" nor the entry department.  The details
join the sorted set (Python `sorted` of a set yields sorted distinct
elements, hence the `dedup`). -/
def deptViols (r : AccessRow) (policy : PolicyRole) : List Violation :=
  if "*" ∉ policy.allowed_departments ∧ r.department ∉ policy.allowed_departments then
    [mkViolation r "ROLE_NOT_ALLOWED_FOR_DEPARTMENT" "HIGH"
      ("Role \x27" ++ r.role ++ "\x27 allowed only for departments: " ++
        String.intercalate ", " (sortStrings policy.allowed_departments.dedup))]
  else []

/-- Rule 3 / rule 4 (`INVALID_STATUS` / `INACTIVE_USER_HAS_ACCESS`),
the `if`/`elif` pair of `review_access`. -/
def statusViols (r : AccessRow) : List Violation :=
  if r.status ∉ ["active", "inactive"] then
    [mkViolation r "INVALID_STATUS" "MEDIUM"
      ("Status must be \x27active\x27 or \x27inactive\x27 (got \x27" ++
        r.status ++ "\x27).")]
  else if r.status = "inactive" then
    [mkViolation r "INACTIVE_USER_HAS_ACCESS" "HIGH"
      "User is inactive but still assigned access."]
  else []

/-- Rule 5 (`DUPLICATE_USER_ROLE_ENTRY`). -/
def dupViols (r : AccessRow) (duplicate_pairs : List (String × String)) :
    List Violation :=
  if accessKey r ∈ duplicate_pairs then
    [mkViolation r "DUPLICATE_USER_ROLE_ENTRY" "LOW"
      "Duplicate user-role assignment found."]
  else []

/-- Rule 6 (`STALE_ACCOUNT`).  On firing it performs one extra
`datetime.today()` call (`clock n`) for the day count, so it returns the
next clock index alongside the violations. -/
def staleViols (clock : Nat → Int) (n : Nat) (stale_cutoff stale_days : Int)
    (r : AccessRow) : List Violation × Nat :=
  match r.last_login with
  | some d =>
      if d < stale_cutoff ∧ r.status = "active" then
        ([mkViolation r "STALE_ACCOUNT" "LOW"
          ("Last login " ++ toString (clock n - d) ++
            " days ago; threshold is " ++ toString stale_days ++ " days.")],
          n + 1)
      else ([], n)
  | none => ([], n)

/-- The body of the `for r in access_rows` loop of `review_access` for one
entry: the violations appended for `r`, and the clock index after the
entry.  An unknown role short-circuits (`continue`). -/
def evalEntry (clock : Nat → Int) (policy_roles : List (String × PolicyRole))
    (duplicate_pairs : List (String × String)) (stale_cutoff stale_days : Int)
    (r : AccessRow) (n : Nat) : List Violation × Nat :=
  match lookupRole policy_roles r.role with
  | none => ([unknownRoleViolation r], n)
  | some policy =>
      let s := staleViols clock n stale_cutoff stale_days r
      (deptViols r policy ++ statusViols r ++ dupViols r duplicate_pairs ++ s.1,
        s.2)

/-- The loop of `review_access`, threading the clock index. -/
def reviewGo (clock : Nat → Int) (policy_roles : List (String × PolicyRole))
    (duplicate_pairs : List (String × String)) (stale_cutoff stale_days : Int) :
    List AccessRow → Nat → List Violation
  | [], _ => []
  | r :: rest, n =>
      (evalEntry clock policy_roles duplicate_pairs stale_cutoff stale_days r n).1
        ++ reviewGo clock policy_roles duplicate_pairs stale_cutoff stale_days
            rest
            (evalEntry clock policy_roles duplicate_pairs stale_cutoff stale_days r n).2

/-- Model of `review_access`: precompute duplicates, compute `stale_cutoff` from
clock call 0 (`datetime.today() - timedelta(days=stale_days)`), then
evaluate every entry in order.  Later `datetime.today()` calls use clock
indices 1, 2, … -/
def review_access (clock : Nat → Int) (access_rows : List AccessRow)
    (policy_roles : List (String × PolicyRole)) (stale_days : Int) :
    List Violation :=
  reviewGo clock policy_roles (find_duplicates access_rows)
    (clock 0 - stale_days) stale_days access_rows 1

/-- One row of `policy_roles.csv` as handed to `read_policy_roles`. -/
structure PolicyCsvRow where
  role : String
  department_allowed : String
  description : String
deriving DecidableEq, Repr

/-- The parse of the `department_allowed` field:
`{"*"} if dep_raw == "*" else {d.strip() for d in dep_raw.split(",") if d.strip()}`. -/
def parseAllowed (dep_raw : String) : List String :=
  if dep_raw = "*" then ["*"]
  else (((splitComma dep_raw).map pyStrip).filter (fun d => d != "")).dedup

/-- Python dict assignment `roles[role] = ...`: overwrite in place if the
key exists, else append. -/
def insertRole (catalog : List (String × PolicyRole)) (k : String)
    (v : PolicyRole) : List (String × PolicyRole) :=
  if catalog.any (fun p => p.fst == k) then
    catalog.map (fun p => if p.fst = k then (k, v) else p)
  else catalog ++ [(k, v)]

/-- Row loop of `read_policy_roles`; `.error` models the raised
`ValueError` (messages abbreviated: the Python ones also carry path and
line number). -/
def readPolicyGo (acc : List (String × PolicyRole)) :
    List PolicyCsvRow → Except String (List (String × PolicyRole))
  | [] => .ok acc
  | row :: rest =>
      if pyStrip row.role = "" then .error "empty role"
      else if pyStrip row.department_allowed = "" then
        .error "department_allowed is empty"
      else
        readPolicyGo
          (insertRole acc (pyStrip row.role)
            ⟨pyStrip row.role, parseAllowed (pyStrip row.department_allowed),
              pyStrip row.description⟩) rest

/-- Model of `read_policy_roles` over already-split CSV rows. -/
def read_policy_roles (rows : List PolicyCsvRow) :
    Except String (List (String × PolicyRole)) :=
  readPolicyGo [] rows

/-- Position of an issue kind in the fixed rule-evaluation order. -/
def ruleIdx (issue : String) : Nat :=
  if issue = "UNKNOWN_ROLE" then 0
  else if issue = "ROLE_NOT_ALLOWED_FOR_DEPARTMENT" then 1
  else if issue = "INVALID_STATUS" then 2
  else if issue = "INACTIVE_USER_HAS_ACCESS" then 3
  else if issue = "DUPLICATE_USER_ROLE_ENTRY" then 4
  else if issue = "STALE_ACCOUNT" then 5
  else 6

/-- Multiplicity of a `(user_id, role)` pair in a batch. -/
def pairCount (p : String × String) (rows : List AccessRow) : Nat :=
  rows.countP (fun r => decide (accessKey r = p))

/-- Recognizer for a `DUPLICATE_USER_ROLE_ENTRY` violation carrying the
pair `p`. -/
def dupPred (p : String × String) (v : Violation) : Bool :=
  v.issue == "DUPLICATE_USER_ROLE_ENTRY" && v.user_id == p.1 && v.role == p.2

theorem deptViols_of_not_allowed {r : AccessRow} {policy : PolicyRole}
    (h1 : "*" ∉ policy.allowed_departments)
    (h2 : r.department ∉ policy.allowed_departments) :
    deptViols r policy =
      [mkViolation r "ROLE_NOT_ALLOWED_FOR_DEPARTMENT" "HIGH"
        ("Role \x27" ++ r.role ++ "\x27 allowed only for departments: " ++
          String.intercalate ", " (sortStrings policy.allowed_departments.dedup))] := by
  unfold deptViols
  rw [if_pos ⟨h1, h2⟩]

theorem deptViols_of_allowed {r : AccessRow} {policy : PolicyRole}
    (h : "*" ∈ policy.allowed_departments ∨ r.department ∈ policy.allowed_departments) :
    deptViols r policy = [] := by
  unfold deptViols
  rw [if_neg]
  tauto

theorem issue_of_mem_deptViols {r : AccessRow} {policy : PolicyRole} {v : Violation}
    (h : v ∈ deptViols r policy) :
    v.issue = "ROLE_NOT_ALLOWED_FOR_DEPARTMENT" ∧ v.severity = "HIGH" := by
  unfold deptViols at h
  split at h
  · rcases List.mem_singleton.mp h with rfl
    exact ⟨rfl, rfl⟩
  · cases h

theorem statusViols_of_invalid {r : AccessRow}
    (h1 : r.status ≠ "active") (h2 : r.status ≠ "inactive") :
    statusViols r =
      [mkViolation r "INVALID_STATUS" "MEDIUM"
        ("Status must be \x27active\x27 or \x27inactive\x27 (got \x27" ++
          r.status ++ "\x27).")] := by
  unfold statusViols
  rw [if_pos]
  simp [h1, h2]

theorem statusViols_of_inactive {r : AccessRow} (h : r.status = "inactive") :
    statusViols r =
      [mkViolation r "INACTIVE_USER_HAS_ACCESS" "HIGH"
        "User is inactive but still assigned access."] := by
  unfold statusViols
  rw [if_neg, if_pos h]
  simp [h]

theorem statusViols_of_active {r : AccessRow} (h : r.status = "active") :
    statusViols r = [] := by
  unfold statusViols
  rw [if_neg, if_neg]
  · simp [h]
  · simp [h]

theorem issue_of_mem_statusViols {r : AccessRow} {v : Violation}
    (h : v ∈ statusViols r) :
    v.issue = "INVALID_STATUS" ∨ v.issue = "INACTIVE_USER_HAS_ACCESS" := by
  unfold statusViols at h
  split at h
  · rcases List.mem_singleton.mp h with rfl
    exact Or.inl rfl
  · split at h
    · rcases List.mem_singleton.mp h with rfl
      exact Or.inr rfl
    · cases h

theorem dupViols_of_mem {r : AccessRow} {dups : List (String × String)}
    (h : accessKey r ∈ dups) :
    dupViols r dups =
      [mkViolation r "DUPLICATE_USER_ROLE_ENTRY" "LOW"
        "Duplicate user-role assignment found."] := by
  unfold dupViols
  rw [if_pos h]

theorem dupViols_of_not_mem {r : AccessRow} {dups : List (String × String)}
    (h : accessKey r ∉ dups) :
    dupViols r dups = [] := by
  unfold dupViols
  rw [if_neg h]

theorem issue_of_mem_dupViols {r : AccessRow} {dups : List (String × String)}
    {v : Violation} (h : v ∈ dupViols r dups) :
    v.issue = "DUPLICATE_USER_ROLE_ENTRY" ∧ v.user_id = r.user_id ∧
      v.role = r.role := by
  unfold dupViols at h
  split at h
  · rcases List.mem_singleton.mp h with rfl
    exact ⟨rfl, rfl, rfl⟩
  · cases h

theorem staleViols_of_none {clock : Nat → Int} {n : Nat}
    {stale_cutoff stale_days : Int} {r : AccessRow} (h : r.last_login = none) :
    staleViols clock n stale_cutoff stale_days r = ([], n) := by
  unfold staleViols
  rw [h]

theorem staleViols_of_fire {clock : Nat → Int} {n : Nat}
    {stale_cutoff stale_days : Int} {r : AccessRow} {d : Int}
    (h : r.last_login = some d) (hlt : d < stale_cutoff)
    (hs : r.status = "active") :
    staleViols clock n stale_cutoff stale_days r =
      ([mkViolation r "STALE_ACCOUNT" "LOW"
        ("Last login " ++ toString (clock n - d) ++
          " days ago; threshold is " ++ toString stale_days ++ " days.")],
        n + 1) := by
  unfold staleViols
  rw [h]
  exact if_pos ⟨hlt, hs⟩

theorem staleViols_of_quiet {clock : Nat → Int} {n : Nat}
    {stale_cutoff stale_days : Int} {r : AccessRow} {d : Int}
    (h : r.last_login = some d)
    (hn : ¬(d < stale_cutoff ∧ r.status = "active")) :
    staleViols clock n stale_cutoff stale_days r = ([], n) := by
  unfold staleViols
  rw [h]
  exact if_neg hn

theorem mem_staleViols {clock : Nat → Int} {n : Nat}
    {stale_cutoff stale_days : Int} {r : AccessRow} {v : Violation}
    (h : v ∈ (staleViols clock n stale_cutoff stale_days r).1) :
    (v.issue = "STALE_ACCOUNT" ∧ v.severity = "LOW") ∧ r.status = "active" := by
  cases hl : r.last_login with
  | none =>
      rw [staleViols_of_none hl] at h
      cases h
  | some d =>
      by_cases hc : d < stale_cutoff ∧ r.status = "active"
      · rw [staleViols_of_fire hl hc.1 hc.2] at h
        rcases List.mem_singleton.mp h with rfl
        exact ⟨⟨rfl, rfl⟩, hc.2⟩
      · rw [staleViols_of_quiet hl hc] at h
        cases h

theorem evalEntry_of_unknown {clock : Nat → Int}
    {policy_roles : List (String × PolicyRole)}
    {dups : List (String × String)} {stale_cutoff stale_days : Int}
    {r : AccessRow} {n : Nat} (h : lookupRole policy_roles r.role = none) :
    evalEntry clock policy_roles dups stale_cutoff stale_days r n =
      ([unknownRoleViolation r], n) := by
  unfold evalEntry
  rw [h]

theorem evalEntry_of_known {clock : Nat → Int}
    {policy_roles : List (String × PolicyRole)}
    {dups : List (String × String)} {stale_cutoff stale_days : Int}
    {r : AccessRow} {n : Nat} {policy : PolicyRole}
    (h : lookupRole policy_roles r.role = some policy) :
    evalEntry clock policy_roles dups stale_cutoff stale_days r n =
      (deptViols r policy ++ statusViols r ++ dupViols r dups ++
         (staleViols clock n stale_cutoff stale_days r).1,
        (staleViols clock n stale_cutoff stale_days r).2) := by
  unfold evalEntry
  rw [h]

theorem length_deptViols_le (r : AccessRow) (policy : PolicyRole) :
    (deptViols r policy).length ≤ 1 := by
  unfold deptViols
  split <;> simp

theorem length_statusViols_le (r : AccessRow) : (statusViols r).length ≤ 1 := by
  unfold statusViols
  split
  · simp
  · split <;> simp

theorem length_dupViols_le (r : AccessRow) (dups : List (String × String)) :
    (dupViols r dups).length ≤ 1 := by
  unfold dupViols
  split <;> simp

theorem length_staleViols_le (clock : Nat → Int) (n : Nat)
    (stale_cutoff stale_days : Int) (r : AccessRow) :
    (staleViols clock n stale_cutoff stale_days r).1.length ≤ 1 := by
  cases hl : r.last_login with
  | none => rw [staleViols_of_none hl]; simp
  | some d =>
      by_cases hc : d < stale_cutoff ∧ r.status = "active"
      · rw [staleViols_of_fire hl hc.1 hc.2]; simp
      · rw [staleViols_of_quiet hl hc]; simp

theorem staleViols_fst_const (t : Int) (stale_cutoff stale_days : Int)
    (r : AccessRow) (n m : Nat) :
    (staleViols (fun _ => t) n stale_cutoff stale_days r).1 =
      (staleViols (fun _ => t) m stale_cutoff stale_days r).1 := by
  cases hl : r.last_login with
  | none => rw [staleViols_of_none hl, staleViols_of_none hl]
  | some d =>
      by_cases hc : d < stale_cutoff ∧ r.status = "active"
      · rw [staleViols_of_fire hl hc.1 hc.2, staleViols_of_fire hl hc.1 hc.2]
      · rw [staleViols_of_quiet hl hc, staleViols_of_quiet hl hc]

theorem evalEntry_fst_const (t : Int) (policy_roles : List (String × PolicyRole))
    (dups : List (String × String)) (stale_cutoff stale_days : Int)
    (r : AccessRow) (n m : Nat) :
    (evalEntry (fun _ => t) policy_roles dups stale_cutoff stale_days r n).1 =
      (evalEntry (fun _ => t) policy_roles dups stale_cutoff stale_days r m).1 := by
  cases hk : lookupRole policy_roles r.role with
  | none => rw [evalEntry_of_unknown hk, evalEntry_of_unknown hk]
  | some policy =>
      rw [evalEntry_of_known hk, evalEntry_of_known hk]
      exact congrArg
        (fun l => deptViols r policy ++ statusViols r ++ dupViols r dups ++ l)
        (staleViols_fst_const t stale_cutoff stale_days r n m)

theorem reviewGo_const (t : Int) (policy_roles : List (String × PolicyRole))
    (dups : List (String × String)) (stale_cutoff stale_days : Int) :
    ∀ (rows : List AccessRow) (n : Nat),
      reviewGo (fun _ => t) policy_roles dups stale_cutoff stale_days rows n =
        rows.flatMap
          (fun r => (evalEntry (fun _ => t) policy_roles dups stale_cutoff stale_days r 0).1)
  | [], _ => rfl
  | r :: rest, n => by
      show (evalEntry (fun _ => t) policy_roles dups stale_cutoff stale_days r n).1 ++
          reviewGo (fun _ => t) policy_roles dups stale_cutoff stale_days rest
            (evalEntry (fun _ => t) policy_roles dups stale_cutoff stale_days r n).2 = _
      rw [reviewGo_const t policy_roles dups stale_cutoff stale_days rest _,
        List.flatMap_cons,
        evalEntry_fst_const t policy_roles dups stale_cutoff stale_days r n 0]

theorem pairCount_nil (p : String × String) : pairCount p [] = 0 := rfl

theorem pairCount_cons (p : String × String) (r : AccessRow)
    (rows : List AccessRow) :
    pairCount p (r :: rows) =
      pairCount p rows + (if accessKey r = p then 1 else 0) := by
  unfold pairCount
  rw [List.countP_cons]
  congr 1
  by_cases h : accessKey r = p <;> simp [h]

theorem mem_fdGo (p : String × String) :
    ∀ (rows : List AccessRow) (seen dups : List (String × String)),
      (p ∈ fdGo seen dups rows ↔
        p ∈ dups ∨ (p ∈ seen ∧ 1 ≤ pairCount p rows) ∨ 2 ≤ pairCount p rows)
  | [], seen, dups => by
      show p ∈ dups ↔ _
      simp [pairCount_nil]
  | r :: rest, seen, dups => by
      unfold fdGo
      rw [pairCount_cons]
      by_cases hk : accessKey r ∈ seen
      · rw [if_pos hk, mem_fdGo p rest seen _]
        have hd : p ∈ (if accessKey r ∈ dups then dups else dups ++ [accessKey r]) ↔
            p ∈ dups ∨ p = accessKey r := by
          split
          next hm =>
            constructor
            · exact Or.inl
            · rintro (h | rfl)
              · exact h
              · exact hm
          next => simp
        rw [hd]
        by_cases hp : accessKey r = p
        · subst hp
          rw [if_pos rfl]
          constructor
          · intro _
            exact Or.inr (Or.inl ⟨hk, by omega⟩)
          · intro _
            exact Or.inl (Or.inr rfl)
        · rw [if_neg hp, Nat.add_zero]
          have hne : ¬(p = accessKey r) := fun h => hp h.symm
          constructor
          · rintro ((h | h) | h)
            · exact Or.inl h
            · exact absurd h hne
            · exact Or.inr h
          · rintro (h | h)
            · exact Or.inl (Or.inl h)
            · exact Or.inr h
      · rw [if_neg hk, mem_fdGo p rest _ dups]
        by_cases hp : accessKey r = p
        · subst hp
          rw [if_pos rfl]
          constructor
          · rintro (h | ⟨_, h⟩ | h)
            · exact Or.inl h
            · exact Or.inr (Or.inr (by omega))
            · exact Or.inr (Or.inr (by omega))
          · rintro (h | ⟨hm, _⟩ | h)
            · exact Or.inl h
            · exact absurd hm hk
            · exact Or.inr (Or.inl ⟨by simp, by omega⟩)
        · rw [if_neg hp]
          have hne : ¬(p = accessKey r) := fun h => hp h.symm
          have hs : p ∈ seen ++ [accessKey r] ↔ p ∈ seen := by simp [hne]
          rw [hs, Nat.add_zero]

theorem mem_find_duplicates (p : String × String) (rows : List AccessRow) :
    p ∈ find_duplicates rows ↔ 2 ≤ pairCount p rows := by
  unfold find_duplicates
  rw [mem_fdGo]
  simp

theorem dupPred_false_of_issue {p : String × String} {v : Violation}
    (h : v.issue ≠ "DUPLICATE_USER_ROLE_ENTRY") : ¬dupPred p v = true := by
  simp [dupPred, h]

theorem countP_dup_deptViols (r : AccessRow) (policy : PolicyRole)
    (p : String × String) : (deptViols r policy).countP (dupPred p) = 0 :=
  List.countP_eq_zero.mpr fun v hv =>
    dupPred_false_of_issue (by rw [(issue_of_mem_deptViols hv).1]; decide)

theorem countP_dup_statusViols (r : AccessRow) (p : String × String) :
    (statusViols r).countP (dupPred p) = 0 :=
  List.countP_eq_zero.mpr fun v hv =>
    dupPred_false_of_issue (by
      rcases issue_of_mem_statusViols hv with h | h <;> rw [h] <;> decide)

theorem countP_dup_staleViols (clock : Nat → Int) (n : Nat)
    (stale_cutoff stale_days : Int) (r : AccessRow) (p : String × String) :
    ((staleViols clock n stale_cutoff stale_days r).1).countP (dupPred p) = 0 :=
  List.countP_eq_zero.mpr fun v hv =>
    dupPred_false_of_issue (by rw [(mem_staleViols hv).1.1]; decide)

theorem countP_dup_dupViols (r : AccessRow) (dups : List (String × String))
    (p : String × String) :
    (dupViols r dups).countP (dupPred p) =
      if accessKey r = p ∧ accessKey r ∈ dups then 1 else 0 := by
  by_cases hm : accessKey r ∈ dups
  · rw [dupViols_of_mem hm]
    by_cases hp : accessKey r = p
    · rw [if_pos ⟨hp, hm⟩]
      have hfields : r.user_id = p.1 ∧ r.role = p.2 := by
        rw [← hp]; exact ⟨rfl, rfl⟩
      simp [List.countP_cons, dupPred, mkViolation, hfields.1, hfields.2]
    · rw [if_neg fun hc => hp hc.1]
      have hfields : ¬(r.user_id = p.1 ∧ r.role = p.2) := by
        intro hc
        exact hp (by
          show (r.user_id, r.role) = p
          rw [hc.1, hc.2])
      simp only [List.countP_cons, List.countP_nil, dupPred, mkViolation]
      simp only [Bool.and_eq_true, beq_iff_eq]
      rw [if_neg]
      intro hc
      exact hfields ⟨hc.1.2, hc.2⟩
  · rw [dupViols_of_not_mem hm, if_neg fun hc => hm hc.2]
    rfl

theorem countP_dup_evalEntry (clock : Nat → Int)
    (policy_roles : List (String × PolicyRole)) (dups : List (String × String))
    (stale_cutoff stale_days : Int) (r : AccessRow) (n : Nat)
    (p : String × String) :
    ((evalEntry clock policy_roles dups stale_cutoff stale_days r n).1).countP (dupPred p) =
      if accessKey r = p ∧ (lookupRole policy_roles r.role).isSome ∧ p ∈ dups
      then 1 else 0 := by
  cases hk : lookupRole policy_roles r.role with
  | none =>
      rw [evalEntry_of_unknown hk]
      rw [if_neg fun hc => by simp at hc]
      have hu : (unknownRoleViolation r).issue = "UNKNOWN_ROLE" := rfl
      have : ¬dupPred p (unknownRoleViolation r) = true :=
        dupPred_false_of_issue (by rw [hu]; decide)
      simp [List.countP_cons, this]
  | some policy =>
      rw [evalEntry_of_known hk]
      rw [List.countP_append, List.countP_append, List.countP_append]
      rw [countP_dup_deptViols, countP_dup_statusViols, countP_dup_dupViols,
        countP_dup_staleViols]
      have hiff : (accessKey r = p ∧ accessKey r ∈ dups) ↔
          (accessKey r = p ∧ (some policy).isSome ∧ p ∈ dups) := by
        constructor
        · rintro ⟨hp, hm⟩
          exact ⟨hp, rfl, hp ▸ hm⟩
        · rintro ⟨hp, _, hm⟩
          refine ⟨hp, ?_⟩
          rw [hp]
          exact hm
      rw [if_congr hiff rfl rfl]
      omega

theorem countP_dup_reviewGo (clock : Nat → Int)
    (policy_roles : List (String × PolicyRole)) (dups : List (String × String))
    (stale_cutoff stale_days : Int) (p : String × String) :
    ∀ (rows : List AccessRow) (n : Nat),
      (reviewGo clock policy_roles dups stale_cutoff stale_days rows n).countP (dupPred p) =
        if (lookupRole policy_roles p.2).isSome ∧ p ∈ dups
        then pairCount p rows else 0
  | [], _ => by
      show (List.countP (dupPred p) []) = _
      rw [List.countP_nil, pairCount_nil]
      simp
  | r :: rest, n => by
      show ((evalEntry clock policy_roles dups stale_cutoff stale_days r n).1 ++
        reviewGo clock policy_roles dups stale_cutoff stale_days rest
          (evalEntry clock policy_roles dups stale_cutoff stale_days r n).2).countP
            (dupPred p) = _
      rw [List.countP_append, countP_dup_evalEntry,
        countP_dup_reviewGo clock policy_roles dups stale_cutoff stale_days p rest _,
        pairCount_cons]
      by_cases hp : accessKey r = p
      · have hr : r.role = p.2 := by rw [← hp]; rfl
        rw [if_pos hp, hr]
        by_cases hs : (lookupRole policy_roles p.2).isSome ∧ p ∈ dups
        · rw [if_pos ⟨hp, hs.1, hs.2⟩, if_pos hs, if_pos hs]
          omega
        · rw [if_neg fun hc => hs ⟨hc.2.1, hc.2.2⟩, if_neg hs, if_neg hs]
      · rw [if_neg fun hc => hp hc.1, if_neg hp, Nat.add_zero, Nat.zero_add]

theorem mem_evalEntry_known {clock : Nat → Int}
    {policy_roles : List (String × PolicyRole)} {dups : List (String × String)}
    {stale_cutoff stale_days : Int} {r : AccessRow} {n : Nat}
    {policy : PolicyRole} {v : Violation}
    (hk : lookupRole policy_roles r.role = some policy)
    (h : v ∈ (evalEntry clock policy_roles dups stale_cutoff stale_days r n).1) :
    v ∈ deptViols r policy ∨ v ∈ statusViols r ∨ v ∈ dupViols r dups ∨
      v ∈ (staleViols clock n stale_cutoff stale_days r).1 := by
  rw [evalEntry_of_known hk] at h
  rcases List.mem_append.mp h with h | h
  · rcases List.mem_append.mp h with h | h
    · rcases List.mem_append.mp h with h | h
      · exact Or.inl h
      · exact Or.inr (Or.inl h)
    · exact Or.inr (Or.inr (Or.inl h))
  · exact Or.inr (Or.inr (Or.inr h))

theorem issue_mkViolation (r : AccessRow) (i s d : String) :
    (mkViolation r i s d).issue = i := rfl

theorem issue_unknownRoleViolation (r : AccessRow) :
    (unknownRoleViolation r).issue = "UNKNOWN_ROLE" := rfl

theorem status_of_invalid_mem {r : AccessRow} {v : Violation}
    (h : v ∈ statusViols r) (hi : v.issue = "INVALID_STATUS") :
    r.status ≠ "active" ∧ r.status ≠ "inactive" := by
  by_cases ha : r.status = "active"
  · rw [statusViols_of_active ha] at h
    cases h
  · by_cases hin : r.status = "inactive"
    · rw [statusViols_of_inactive hin] at h
      rcases List.mem_singleton.mp h with rfl
      rw [issue_mkViolation] at hi
      exact absurd hi (by decide)
    · exact ⟨ha, hin⟩

theorem status_of_inactive_mem {r : AccessRow} {v : Violation}
    (h : v ∈ statusViols r) (hi : v.issue = "INACTIVE_USER_HAS_ACCESS") :
    r.status = "inactive" := by
  by_cases ha : r.status = "active"
  · rw [statusViols_of_active ha] at h
    cases h
  · by_cases hin : r.status = "inactive"
    · exact hin
    · rw [statusViols_of_invalid ha hin] at h
      rcases List.mem_singleton.mp h with rfl
      rw [issue_mkViolation] at hi
      exact absurd hi (by decide)

end AccessReview

namespace AccessReview

/-- Claim C1: For any catalog, duplicate-pair set, cutoff and clock state, an
entry whose role has no matching key in the policy catalog produces exactly
the single violation `UNKNOWN_ROLE` with severity `HIGH`, no other rule
fires for the entry, and evaluation stops (the clock index is returned
unchanged, so not even the staleness day-count runs). -/
theorem claim_C1 (clock : Nat → Int) (policy_roles : List (String × PolicyRole))
    (dups : List (String × String)) (stale_cutoff stale_days : Int)
    (r : AccessRow) (n : Nat) (h : lookupRole policy_roles r.role = none) :
    evalEntry clock policy_roles dups stale_cutoff stale_days r n =
      ([mkViolation r "UNKNOWN_ROLE" "HIGH" "Role not found in policy catalog."],
        n) :=
  evalEntry_of_unknown h

theorem claim_C1_witness :
    evalEntry (fun _ => 0) [] [] (-90) 90
        ⟨"U2", "N", "finance", "ghost", "active", none⟩ 1 =
      ([mkViolation ⟨"U2", "N", "finance", "ghost", "active", none⟩
          "UNKNOWN_ROLE" "HIGH" "Role not found in policy catalog."], 1) :=
  claim_C1 (fun _ => 0) [] [] (-90) 90
    ⟨"U2", "N", "finance", "ghost", "active", none⟩ 1 rfl

/-- Claim C3: For an entry whose role resolves to `policy` in the catalog, a
`ROLE_NOT_ALLOWED_FOR_DEPARTMENT` violation (severity `HIGH`) is produced
iff the allowed-departments set contains neither the literal "*" sentinel
nor the entry's department (exact string match). -/
theorem claim_C3 (clock : Nat → Int) (policy_roles : List (String × PolicyRole))
    (dups : List (String × String)) (stale_cutoff stale_days : Int)
    (r : AccessRow) (n : Nat) (policy : PolicyRole)
    (hk : lookupRole policy_roles r.role = some policy) :
    (∃ v ∈ (evalEntry clock policy_roles dups stale_cutoff stale_days r n).1,
        v.issue = "ROLE_NOT_ALLOWED_FOR_DEPARTMENT" ∧ v.severity = "HIGH") ↔
      ("*" ∉ policy.allowed_departments ∧
        r.department ∉ policy.allowed_departments) := by
  constructor
  · rintro ⟨v, hv, hissue, -⟩
    rcases mem_evalEntry_known hk hv with h | h | h | h
    · by_cases h1 : "*" ∈ policy.allowed_departments
      · rw [deptViols_of_allowed (Or.inl h1)] at h
        cases h
      · by_cases h2 : r.department ∈ policy.allowed_departments
        · rw [deptViols_of_allowed (Or.inr h2)] at h
          cases h
        · exact ⟨h1, h2⟩
    · rcases issue_of_mem_statusViols h with h' | h' <;> rw [h'] at hissue <;>
        exact absurd hissue (by decide)
    · rw [(issue_of_mem_dupViols h).1] at hissue
      exact absurd hissue (by decide)
    · rw [(mem_staleViols h).1.1] at hissue
      exact absurd hissue (by decide)
  · rintro ⟨h1, h2⟩
    refine ⟨mkViolation r "ROLE_NOT_ALLOWED_FOR_DEPARTMENT" "HIGH"
      ("Role \x27" ++ r.role ++ "\x27 allowed only for departments: " ++
        String.intercalate ", " (sortStrings policy.allowed_departments.dedup)),
      ?_, rfl, rfl⟩
    rw [evalEntry_of_known hk, deptViols_of_not_allowed h1 h2]
    simp

theorem claim_C3_witness :
    (∃ v ∈ (evalEntry (fun _ => 0)
        [("analyst", ⟨"analyst", ["finance", "ops"], ""⟩)] [] (-90) 90
        ⟨"U1", "N", "sales", "analyst", "active", none⟩ 1).1,
        v.issue = "ROLE_NOT_ALLOWED_FOR_DEPARTMENT" ∧ v.severity = "HIGH") ↔
      ("*" ∉ (["finance", "ops"] : List String) ∧
        "sales" ∉ (["finance", "ops"] : List String)) :=
  claim_C3 (fun _ => 0) [("analyst", ⟨"analyst", ["finance", "ops"], ""⟩)] []
    (-90) 90 ⟨"U1", "N", "sales", "analyst", "active", none⟩ 1
    ⟨"analyst", ["finance", "ops"], ""⟩ rfl

/-- Claim C5, counterexample: The claim quantifies over every access entry,
but an entry whose role is unknown to the catalog short-circuits after
`UNKNOWN_ROLE`: this entry has status "inactive" yet its violation list is
exactly the `UNKNOWN_ROLE` singleton, with no `INACTIVE_USER_HAS_ACCESS` —
refuting "INACTIVE_USER_HAS_ACCESS fires exactly when the status is
inactive". -/
theorem claim_C5_counterexample :
    (⟨"U1", "N", "ops", "ghost", "inactive", none⟩ : AccessRow).status =
      "inactive" ∧
    review_access (fun _ => 0)
        [⟨"U1", "N", "ops", "ghost", "inactive", none⟩] [] 90 =
      [mkViolation ⟨"U1", "N", "ops", "ghost", "inactive", none⟩
        "UNKNOWN_ROLE" "HIGH" "Role not found in policy catalog."] :=
  ⟨rfl, by decide⟩

/-- Claim C5, amended: For every entry, `INVALID_STATUS` and
`INACTIVE_USER_HAS_ACCESS` never both fire; if the status is neither
"active" nor "inactive", `INACTIVE_USER_HAS_ACCESS` cannot fire; and for
entries whose role is in the catalog, `INACTIVE_USER_HAS_ACCESS` fires
exactly when the status is "inactive" (entries with an unknown role
short-circuit and get neither status violation). -/
theorem claim_C5 (clock : Nat → Int) (policy_roles : List (String × PolicyRole))
    (dups : List (String × String)) (stale_cutoff stale_days : Int)
    (r : AccessRow) (n : Nat) :
    (¬((∃ v ∈ (evalEntry clock policy_roles dups stale_cutoff stale_days r n).1,
          v.issue = "INVALID_STATUS") ∧
        (∃ v ∈ (evalEntry clock policy_roles dups stale_cutoff stale_days r n).1,
          v.issue = "INACTIVE_USER_HAS_ACCESS"))) ∧
    (r.status ≠ "active" → r.status ≠ "inactive" →
      ∀ v ∈ (evalEntry clock policy_roles dups stale_cutoff stale_days r n).1,
        v.issue ≠ "INACTIVE_USER_HAS_ACCESS") ∧
    (∀ policy, lookupRole policy_roles r.role = some policy →
      ((∃ v ∈ (evalEntry clock policy_roles dups stale_cutoff stale_days r n).1,
          v.issue = "INACTIVE_USER_HAS_ACCESS") ↔ r.status = "inactive")) := by
  have hside : ∀ {v : Violation},
      v ∈ (evalEntry clock policy_roles dups stale_cutoff stale_days r n).1 →
      v.issue = "INACTIVE_USER_HAS_ACCESS" → v ∈ statusViols r := by
    intro v hv hi
    cases hk : lookupRole policy_roles r.role with
    | none =>
        rw [evalEntry_of_unknown hk] at hv
        rcases List.mem_singleton.mp hv with rfl
        rw [issue_unknownRoleViolation] at hi
        exact absurd hi (by decide)
    | some policy =>
        rcases mem_evalEntry_known hk hv with h | h | h | h
        · rw [(issue_of_mem_deptViols h).1] at hi
          exact absurd hi (by decide)
        · exact h
        · rw [(issue_of_mem_dupViols h).1] at hi
          exact absurd hi (by decide)
        · rw [(mem_staleViols h).1.1] at hi
          exact absurd hi (by decide)
  have hsideInv : ∀ {v : Violation},
      v ∈ (evalEntry clock policy_roles dups stale_cutoff stale_days r n).1 →
      v.issue = "INVALID_STATUS" → v ∈ statusViols r := by
    intro v hv hi
    cases hk : lookupRole policy_roles r.role with
    | none =>
        rw [evalEntry_of_unknown hk] at hv
        rcases List.mem_singleton.mp hv with rfl
        rw [issue_unknownRoleViolation] at hi
        exact absurd hi (by decide)
    | some policy =>
        rcases mem_evalEntry_known hk hv with h | h | h | h
        · rw [(issue_of_mem_deptViols h).1] at hi
          exact absurd hi (by decide)
        · exact h
        · rw [(issue_of_mem_dupViols h).1] at hi
          exact absurd hi (by decide)
        · rw [(mem_staleViols h).1.1] at hi
          exact absurd hi (by decide)
  refine ⟨?_, ?_, ?_⟩
  · rintro ⟨⟨v1, hv1, hi1⟩, ⟨v2, hv2, hi2⟩⟩
    have hs1 := status_of_invalid_mem (hsideInv hv1 hi1) hi1
    have hs2 := status_of_inactive_mem (hside hv2 hi2) hi2
    exact hs1.2 hs2
  · intro ha hi v hv hissue
    have hs := status_of_inactive_mem (hside hv hissue) hissue
    exact hi hs
  · intro policy hk
    constructor
    · rintro ⟨v, hv, hi⟩
      exact status_of_inactive_mem (hside hv hi) hi
    · intro hin
      refine ⟨mkViolation r "INACTIVE_USER_HAS_ACCESS" "HIGH"
          "User is inactive but still assigned access.", ?_, rfl⟩
      rw [evalEntry_of_known hk, statusViols_of_inactive hin]
      simp

theorem claim_C5_witness :
    ¬((∃ v ∈ (evalEntry (fun _ => 0)
          [("viewer", ⟨"viewer", ["*"], ""⟩)] [] (-90) 90
          ⟨"U3", "N", "ops", "viewer", "inactive", none⟩ 1).1,
        v.issue = "INVALID_STATUS") ∧
      (∃ v ∈ (evalEntry (fun _ => 0)
          [("viewer", ⟨"viewer", ["*"], ""⟩)] [] (-90) 90
          ⟨"U3", "N", "ops", "viewer", "inactive", none⟩ 1).1,
        v.issue = "INACTIVE_USER_HAS_ACCESS")) :=
  (claim_C5 (fun _ => 0) [("viewer", ⟨"viewer", ["*"], ""⟩)] [] (-90) 90
    ⟨"U3", "N", "ops", "viewer", "inactive", none⟩ 1).1

/-- Claim C8, counterexample: A policy row whose `department_allowed` is the
explicit comma-separated list "finance,*" parses to the set
`{"finance", "*"}` — the literal "*" is just a member, not a distinct
sentinel — and an entry in department "sales" (not in the explicit set)
produces NO violation at all: the membership test `"*" ∈ allowed` treats
the policy as allowing all departments, contrary to the claim. -/
theorem claim_C8_counterexample :
    read_policy_roles [⟨"analyst", "finance,*", "d"⟩] =
      .ok [("analyst", ⟨"analyst", ["finance", "*"], "d"⟩)] ∧
    ("sales" ∉ (["finance", "*"] : List String)) ∧
    parseAllowed "finance,*" ≠ ["*"] ∧
    review_access (fun _ => 0)
        [⟨"U1", "N", "sales", "analyst", "active", none⟩]
        [("analyst", ⟨"analyst", ["finance", "*"], "d"⟩)] 90 = [] :=
  ⟨rfl, by decide, by decide, by decide⟩

/-- Claim C8, amended: The "allow all departments" sentinel is the literal
string "*" stored as a member of the allowed set, so ANY allowed set
containing "*" — including one parsed from an explicit comma-separated
list that merely mentions "*" among other department names — suppresses
`ROLE_NOT_ALLOWED_FOR_DEPARTMENT` for every department. -/
theorem claim_C8 (clock : Nat → Int) (policy_roles : List (String × PolicyRole))
    (dups : List (String × String)) (stale_cutoff stale_days : Int)
    (r : AccessRow) (n : Nat) (policy : PolicyRole)
    (hk : lookupRole policy_roles r.role = some policy)
    (hstar : "*" ∈ policy.allowed_departments) :
    ∀ v ∈ (evalEntry clock policy_roles dups stale_cutoff stale_days r n).1,
      v.issue ≠ "ROLE_NOT_ALLOWED_FOR_DEPARTMENT" := by
  intro v hv
  rcases mem_evalEntry_known hk hv with h | h | h | h
  · rw [deptViols_of_allowed (Or.inl hstar)] at h
    cases h
  · rcases issue_of_mem_statusViols h with h' | h' <;> rw [h'] <;> decide
  · rw [(issue_of_mem_dupViols h).1]
    decide
  · rw [(mem_staleViols h).1.1]
    decide

theorem claim_C8_witness :
    (mkViolation ⟨"U1", "N", "sales", "analyst", "inactive", none⟩
        "INACTIVE_USER_HAS_ACCESS" "HIGH"
        "User is inactive but still assigned access.").issue ≠
      "ROLE_NOT_ALLOWED_FOR_DEPARTMENT" :=
  claim_C8 (fun _ => 0) [("analyst", ⟨"analyst", ["finance", "*"], "d"⟩)] []
    (-90) 90 ⟨"U1", "N", "sales", "analyst", "inactive", none⟩ 1
    ⟨"analyst", ["finance", "*"], "d"⟩ rfl (by decide)
    (mkViolation ⟨"U1", "N", "sales", "analyst", "inactive", none⟩
      "INACTIVE_USER_HAS_ACCESS" "HIGH"
      "User is inactive but still assigned access.") (by decide)

/-- Claim C9, code bug: A policy row whose `department_allowed` field is ","
passes the emptiness guard (the raw string is non-empty) yet parses to the
EMPTY allowed-departments set, and loading succeeds: the resulting catalog
violates "the set is never empty by construction". -/
theorem claim_C9_failing :
    read_policy_roles [⟨"analyst", ",", ""⟩] =
      .ok [("analyst", ⟨"analyst", [], ""⟩)] := rfl

theorem pairwise_of_length_le_one {α : Type} {R : α → α → Prop} {l : List α}
    (h : l.length ≤ 1) : l.Pairwise R := by
  match l with
  | [] => exact List.Pairwise.nil
  | [a] => simp
  | a :: b :: t => simp at h

/-- Claim C2: Taking `t` as the reference date (clock call 0), a
`STALE_ACCOUNT` violation (severity `LOW`) is produced for an entry iff
its role is in the catalog, its status is exactly "active", and its last
login is present and strictly earlier than `t - stale_days`; an absent
last login never produces `STALE_ACCOUNT`, whatever the status. -/
theorem claim_C2 (clock : Nat → Int) (policy_roles : List (String × PolicyRole))
    (dups : List (String × String)) (t stale_days : Int) (r : AccessRow)
    (n : Nat) :
    ((∃ v ∈ (evalEntry clock policy_roles dups (t - stale_days) stale_days r n).1,
        v.issue = "STALE_ACCOUNT" ∧ v.severity = "LOW") ↔
      ((lookupRole policy_roles r.role).isSome ∧ r.status = "active" ∧
        ∃ d, r.last_login = some d ∧ d < t - stale_days)) ∧
    (r.last_login = none →
      ∀ v ∈ (evalEntry clock policy_roles dups (t - stale_days) stale_days r n).1,
        v.issue ≠ "STALE_ACCOUNT") := by
  constructor
  · constructor
    · rintro ⟨v, hv, hissue, -⟩
      cases hk : lookupRole policy_roles r.role with
      | none =>
          rw [evalEntry_of_unknown hk] at hv
          rcases List.mem_singleton.mp hv with rfl
          rw [issue_unknownRoleViolation] at hissue
          exact absurd hissue (by decide)
      | some policy =>
          rcases mem_evalEntry_known hk hv with h | h | h | h
          · rw [(issue_of_mem_deptViols h).1] at hissue
            exact absurd hissue (by decide)
          · rcases issue_of_mem_statusViols h with h' | h' <;> rw [h'] at hissue <;>
              exact absurd hissue (by decide)
          · rw [(issue_of_mem_dupViols h).1] at hissue
            exact absurd hissue (by decide)
          · refine ⟨rfl, (mem_staleViols h).2, ?_⟩
            cases hl : r.last_login with
            | none =>
                rw [staleViols_of_none hl] at h
                cases h
            | some d =>
                by_cases hc : d < t - stale_days ∧ r.status = "active"
                · exact ⟨d, rfl, hc.1⟩
                · rw [staleViols_of_quiet hl hc] at h
                  cases h
    · rintro ⟨hsome, hact, d, hl, hlt⟩
      rcases Option.isSome_iff_exists.mp hsome with ⟨policy, hk⟩
      refine ⟨mkViolation r "STALE_ACCOUNT" "LOW"
        ("Last login " ++ toString (clock n - d) ++
          " days ago; threshold is " ++ toString stale_days ++ " days."),
        ?_, rfl, rfl⟩
      rw [evalEntry_of_known hk,
        @staleViols_of_fire clock n (t - stale_days) stale_days r d hl hlt hact]
      simp
  · intro hnone v hv hissue
    cases hk : lookupRole policy_roles r.role with
    | none =>
        rw [evalEntry_of_unknown hk] at hv
        rcases List.mem_singleton.mp hv with rfl
        rw [issue_unknownRoleViolation] at hissue
        exact absurd hissue (by decide)
    | some policy =>
        rcases mem_evalEntry_known hk hv with h | h | h | h
        · rw [(issue_of_mem_deptViols h).1] at hissue
          exact absurd hissue (by decide)
        · rcases issue_of_mem_statusViols h with h' | h' <;> rw [h'] at hissue <;>
            exact absurd hissue (by decide)
        · rw [(issue_of_mem_dupViols h).1] at hissue
          exact absurd hissue (by decide)
        · rw [staleViols_of_none hnone] at h
          cases h

theorem claim_C2_witness :
    ((∃ v ∈ (evalEntry (fun _ => 0) [("viewer", ⟨"viewer", ["*"], ""⟩)] []
          ((0 : Int) - 90) 90 ⟨"U1", "N", "ops", "viewer", "active", some (-200)⟩ 1).1,
        v.issue = "STALE_ACCOUNT" ∧ v.severity = "LOW") ↔
      ((lookupRole [("viewer", ⟨"viewer", ["*"], ""⟩)] "viewer").isSome ∧
        ("active" : String) = "active" ∧
        ∃ d, (some (-200) : Option Int) = some d ∧ d < (0 : Int) - 90)) ∧
    ((some (-200) : Option Int) = none →
      ∀ v ∈ (evalEntry (fun _ => 0) [("viewer", ⟨"viewer", ["*"], ""⟩)] []
          ((0 : Int) - 90) 90 ⟨"U1", "N", "ops", "viewer", "active", some (-200)⟩ 1).1,
        v.issue ≠ "STALE_ACCOUNT") :=
  claim_C2 (fun _ => 0) [("viewer", ⟨"viewer", ["*"], ""⟩)] [] 0 90
    ⟨"U1", "N", "ops", "viewer", "active", some (-200)⟩ 1

/-- Claim C4: The duplicate-pair set is exactly the set of `(subjectId, role)`
pairs of multiplicity ≥ 2, it is invariant under permutation of the batch,
an empty batch yields the empty set, and for a pair whose role is known to
the catalog: if it occurs k ≥ 2 times then exactly k
`DUPLICATE_USER_ROLE_ENTRY` violations carrying that pair are produced,
and if it occurs once then none are. -/
theorem claim_C4 (clock : Nat → Int) (rows rows' : List AccessRow)
    (policy_roles : List (String × PolicyRole)) (stale_days : Int)
    (p : String × String) :
    (p ∈ find_duplicates rows ↔ 2 ≤ pairCount p rows) ∧
    (rows.Perm rows' → (p ∈ find_duplicates rows ↔ p ∈ find_duplicates rows')) ∧
    (find_duplicates [] = ([] : List (String × String))) ∧
    ((lookupRole policy_roles p.2).isSome →
      (2 ≤ pairCount p rows →
        (review_access clock rows policy_roles stale_days).countP (dupPred p) =
          pairCount p rows) ∧
      (pairCount p rows = 1 →
        (review_access clock rows policy_roles stale_days).countP (dupPred p) = 0)) := by
  refine ⟨mem_find_duplicates p rows, ?_, rfl, ?_⟩
  · intro hperm
    rw [mem_find_duplicates, mem_find_duplicates]
    unfold pairCount
    rw [hperm.countP_eq]
  · intro hsome
    have hrev : (review_access clock rows policy_roles stale_days).countP (dupPred p) =
        if (lookupRole policy_roles p.2).isSome ∧ p ∈ find_duplicates rows
        then pairCount p rows else 0 :=
      countP_dup_reviewGo clock policy_roles (find_duplicates rows)
        (clock 0 - stale_days) stale_days p rows 1
    constructor
    · intro h2
      rw [hrev, if_pos ⟨hsome, (mem_find_duplicates p rows).mpr h2⟩]
    · intro h1
      rw [hrev, if_neg]
      rintro ⟨-, hmem⟩
      have := (mem_find_duplicates p rows).mp hmem
      omega

theorem claim_C4_witness :
    (review_access (fun _ => 0)
        [⟨"U3", "N", "ops", "viewer", "active", none⟩,
         ⟨"U3", "N", "ops", "viewer", "active", none⟩]
        [("viewer", ⟨"viewer", ["*"], ""⟩)] 90).countP (dupPred ("U3", "viewer")) =
      pairCount ("U3", "viewer")
        [⟨"U3", "N", "ops", "viewer", "active", none⟩,
         ⟨"U3", "N", "ops", "viewer", "active", none⟩] :=
  ((claim_C4 (fun _ => 0)
      [⟨"U3", "N", "ops", "viewer", "active", none⟩,
       ⟨"U3", "N", "ops", "viewer", "active", none⟩]
      []
      [("viewer", ⟨"viewer", ["*"], ""⟩)] 90 ("U3", "viewer")).2.2.2
    (by decide)).1 (by decide)

/-- Claim C6: With the reference date frozen at `t`, the batch output is the
concatenation, in input entry order, of each entry's violation list; and
within any one entry the violations appear in strictly increasing position
of the fixed rule order UNKNOWN_ROLE, ROLE_NOT_ALLOWED_FOR_DEPARTMENT,
INVALID_STATUS, INACTIVE_USER_HAS_ACCESS, DUPLICATE_USER_ROLE_ENTRY,
STALE_ACCOUNT. -/
theorem claim_C6 :
    (∀ (t : Int) (rows : List AccessRow)
        (policy_roles : List (String × PolicyRole)) (stale_days : Int),
      review_access (fun _ => t) rows policy_roles stale_days =
        rows.flatMap (fun r =>
          (evalEntry (fun _ => t) policy_roles (find_duplicates rows)
            (t - stale_days) stale_days r 0).1)) ∧
    (∀ (clock : Nat → Int) (policy_roles : List (String × PolicyRole))
        (dups : List (String × String)) (stale_cutoff stale_days : Int)
        (r : AccessRow) (n : Nat),
      ((evalEntry clock policy_roles dups stale_cutoff stale_days r n).1).Pairwise
        (fun a b => ruleIdx a.issue < ruleIdx b.issue)) := by
  constructor
  · intro t rows policy_roles stale_days
    exact reviewGo_const t policy_roles (find_duplicates rows)
      (t - stale_days) stale_days rows 1
  · intro clock policy_roles dups stale_cutoff stale_days r n
    cases hk : lookupRole policy_roles r.role with
    | none =>
        rw [evalEntry_of_unknown hk]
        exact pairwise_of_length_le_one (by simp)
    | some policy =>
        rw [evalEntry_of_known hk]
        have hd : ∀ v ∈ deptViols r policy, ruleIdx v.issue = 1 := fun v hv => by
          rw [(issue_of_mem_deptViols hv).1]; decide
        have hs : ∀ v ∈ statusViols r,
            ruleIdx v.issue = 2 ∨ ruleIdx v.issue = 3 := fun v hv => by
          rcases issue_of_mem_statusViols hv with h | h
          · exact Or.inl (by rw [h]; decide)
          · exact Or.inr (by rw [h]; decide)
        have hdu : ∀ v ∈ dupViols r dups, ruleIdx v.issue = 4 := fun v hv => by
          rw [(issue_of_mem_dupViols hv).1]; decide
        have hst : ∀ v ∈ (staleViols clock n stale_cutoff stale_days r).1,
            ruleIdx v.issue = 5 := fun v hv => by
          rw [(mem_staleViols hv).1.1]; decide
        rw [List.pairwise_append]
        refine ⟨?_,
          pairwise_of_length_le_one
            (length_staleViols_le clock n stale_cutoff stale_days r), ?_⟩
        · rw [List.pairwise_append]
          refine ⟨?_, pairwise_of_length_le_one (length_dupViols_le r dups), ?_⟩
          · rw [List.pairwise_append]
            refine ⟨pairwise_of_length_le_one (length_deptViols_le r policy),
              pairwise_of_length_le_one (length_statusViols_le r), ?_⟩
            intro a ha b hb
            rcases hs b hb with h | h <;> rw [hd a ha, h] <;> decide
          · intro a ha b hb
            rcases List.mem_append.mp ha with ha | ha
            · rw [hd a ha, hdu b hb]
              decide
            · rcases hs a ha with h | h <;> rw [h, hdu b hb] <;> decide
        · intro a ha b hb
          have hb5 := hst b hb
          rcases List.mem_append.mp ha with ha | ha
          · rcases List.mem_append.mp ha with ha | ha
            · rw [hd a ha, hb5]
              decide
            · rcases hs a ha with h | h <;> rw [h, hb5] <;> decide
          · rw [hdu a ha, hb5]
            decide

/-- Claim C7, counterexample: Two clock streams that agree on call 0 (the
reference timestamp used for the cutoff) but differ on call 1 produce
different violation sequences — the stale-account details re-read the
clock — so the reviewer does NOT compute a single reference "now" once per
pass. -/
theorem claim_C7_counterexample :
    (fun _ : Nat => (0 : Int)) 0 = (fun k : Nat => if k = 0 then (0 : Int) else 5) 0 ∧
    review_access (fun _ => (0 : Int))
        [⟨"U1", "N", "ops", "viewer", "active", some (-200)⟩]
        [("viewer", ⟨"viewer", ["*"], ""⟩)] 90 ≠
      review_access (fun k => if k = 0 then (0 : Int) else 5)
        [⟨"U1", "N", "ops", "viewer", "active", some (-200)⟩]
        [("viewer", ⟨"viewer", ["*"], ""⟩)] 90 :=
  ⟨rfl, by decide⟩

/-- Claim C7, amended: The reviewer reads the clock once for the staleness
cutoff and again for each stale entry's day count; when the clock is
frozen (every read returns the same instant), two runs over the same
entries, catalog and threshold yield identical violation sequences,
details strings included. -/
theorem claim_C7 (t : Int) (clock1 clock2 : Nat → Int)
    (rows : List AccessRow) (policy_roles : List (String × PolicyRole))
    (stale_days : Int) (h1 : ∀ n, clock1 n = t) (h2 : ∀ n, clock2 n = t) :
    review_access clock1 rows policy_roles stale_days =
      review_access clock2 rows policy_roles stale_days := by
  have e1 : clock1 = fun _ => t := funext h1
  have e2 : clock2 = fun _ => t := funext h2
  rw [e1, e2]

theorem claim_C7_witness :
    review_access (fun _ => (7 : Int))
        [⟨"U1", "N", "ops", "viewer", "active", some (-200)⟩]
        [("viewer", ⟨"viewer", ["*"], ""⟩)] 90 =
      review_access (fun _ => (7 : Int))
        [⟨"U1", "N", "ops", "viewer", "active", some (-200)⟩]
        [("viewer", ⟨"viewer", ["*"], ""⟩)] 90 :=
  claim_C7 7 (fun _ => 7) (fun _ => 7)
    [⟨"U1", "N", "ops", "viewer", "active", some (-200)⟩]
    [("viewer", ⟨"viewer", ["*"], ""⟩)] 90 (fun _ => rfl) (fun _ => rfl)

/-- Claim C10: Evaluating one entry produces at most 4 violations; an entry
with an unknown role produces exactly 1; and a count of 4 could only occur
with the department rule, a status rule, the duplicate rule and the
staleness rule all firing (in fact the status and staleness rules are
mutually exclusive, so the count never reaches 4). -/
theorem claim_C10 (clock : Nat → Int) (policy_roles : List (String × PolicyRole))
    (dups : List (String × String)) (stale_cutoff stale_days : Int)
    (r : AccessRow) (n : Nat) :
    ((evalEntry clock policy_roles dups stale_cutoff stale_days r n).1.length ≤ 4) ∧
    (lookupRole policy_roles r.role = none →
      (evalEntry clock policy_roles dups stale_cutoff stale_days r n).1.length = 1) ∧
    ((evalEntry clock policy_roles dups stale_cutoff stale_days r n).1.length = 4 →
      (∃ v ∈ (evalEntry clock policy_roles dups stale_cutoff stale_days r n).1,
        v.issue = "ROLE_NOT_ALLOWED_FOR_DEPARTMENT") ∧
      (∃ v ∈ (evalEntry clock policy_roles dups stale_cutoff stale_days r n).1,
        v.issue = "INVALID_STATUS" ∨ v.issue = "INACTIVE_USER_HAS_ACCESS") ∧
      (∃ v ∈ (evalEntry clock policy_roles dups stale_cutoff stale_days r n).1,
        v.issue = "DUPLICATE_USER_ROLE_ENTRY") ∧
      (∃ v ∈ (evalEntry clock policy_roles dups stale_cutoff stale_days r n).1,
        v.issue = "STALE_ACCOUNT")) := by
  cases hk : lookupRole policy_roles r.role with
  | none =>
      rw [evalEntry_of_unknown hk]
      refine ⟨by simp, fun _ => rfl, ?_⟩
      intro h4
      simp at h4
  | some policy =>
      have h3 : (evalEntry clock policy_roles dups stale_cutoff stale_days r n).1.length ≤ 3 := by
        rw [evalEntry_of_known hk]
        rw [List.length_append, List.length_append, List.length_append]
        have hd := length_deptViols_le r policy
        have hdu := length_dupViols_le r dups
        have hst := length_staleViols_le clock n stale_cutoff stale_days r
        by_cases he : (staleViols clock n stale_cutoff stale_days r).1 = []
        · have hs := length_statusViols_le r
          rw [he, List.length_nil]
          omega
        · rcases List.exists_mem_of_ne_nil _ he with ⟨v, hv⟩
          have hz : statusViols r = [] := statusViols_of_active (mem_staleViols hv).2
          rw [hz, List.length_nil]
          omega
      refine ⟨by omega, ?_, ?_⟩
      · intro hnone
        cases hnone
      · intro h4
        exact absurd h4 (by omega)

theorem claim_C10_witness :
    (evalEntry (fun _ => 0) [] [] (-90) 90
      ⟨"U9", "N", "ops", "ghost", "active", none⟩ 1).1.length = 1 :=
  (claim_C10 (fun _ => 0) [] [] (-90) 90
    ⟨"U9", "N", "ops", "ghost", "active", none⟩ 1).2.1 rfl

end AccessReview
